import Mathlib

/-!
Shallow embedding of the memory-alpha server (src/memory_alpha), covering
the cluster-assignment engine, the two-stage retrieval engine, the
ranking/token-budget packer, chunk identity hashing and parameter
validation, as implemented in `server.py`, `params.py` and `settings.py`.

Vectors are lists of rationals; the external embedder and the vector
store's similarity ranking are abstract parameters; the vector store's
filtering, limits and upsert semantics are modelled concretely.
-/

namespace MemoryAlpha

/-- The cosine-similarity threshold `0.85` used in `store_memory`
(server.py line 128). -/
def simThreshold : ℚ := 85 / 100

/-- The `limit=5` of the cluster-centroid search in `store_memory`
(server.py line 119). -/
def clusterSearchLimit : ℕ := 5

/-- The `limit=10` of the cluster-centroid search in `query_memory`
(server.py line 237). -/
def querySearchLimit : ℕ := 10

/-- The list `DEFAULT_CONTEXT_LEVELS` from settings.py. -/
def DEFAULT_CONTEXT_LEVELS : List String :=
  ["function_signature", "file_section", "file", "module", "project"]

/-- Componentwise sum of two vectors; `List.zipWith` truncates to the
shorter list exactly like Python's `zip(..., strict=False)`. -/
def vecAdd (x y : List ℚ) : List ℚ := List.zipWith (· + ·) x y

/-- Scalar multiple of a vector. -/
def vecSmul (a : ℚ) (x : List ℚ) : List ℚ := x.map (a * ·)

/-- Sum of a batch of vectors starting from `v`. -/
def vecSumFrom (v : List ℚ) (vs : List (List ℚ)) : List ℚ := vs.foldl vecAdd v

/-- The incremental centroid update of server.py lines 146-150:
`[(v1 * member_count + v2) / (member_count + 1) for v1, v2 in zip(old, new)]`. -/
def updateCentroid (old : List ℚ) (mc : ℕ) (v : List ℚ) : List ℚ :=
  List.zipWith (fun o w => (o * (mc : ℚ) + w) / ((mc : ℚ) + 1)) old v

/-- A cluster point as returned by the vector-store search: id, similarity
score, optional stored vector, and the payload fields read by
`store_memory` (`member_count` is accessed unconditionally,
`importance` via `payload.get("importance", 1.0)`). -/
structure ClusterPoint where
  id : ℕ
  score : ℚ
  vector : Option (List ℚ)
  member_count : ℕ
  importance : Option ℚ
deriving Repr, DecidableEq

/-- A cluster record as upserted into the cluster collection
(server.py lines 151-173): payload `{level, member_count, importance}`. -/
structure ClusterRecord where
  id : ℕ
  vector : List ℚ
  level : String
  member_count : ℕ
  importance : ℚ
deriving Repr, DecidableEq

/-- A chunk record as upserted into the chunk collection
(server.py lines 175-189). `access_count` and `importance` are kept
optional because `query_memory` reads them with
`payload.get("access_count", 0)` and `payload.get("importance", 1.0)`;
`store_memory` always writes `access_count = 0` and never writes
`importance`. -/
structure ChunkRecord where
  id : ℕ
  vector : List ℚ
  repo_path : String
  level : String
  context : String
  cluster_id : ℕ
  commit_id : String
  access_count : Option ℕ
  importance : Option ℚ
  timestamp : ℚ
deriving Repr, DecidableEq

/-- Result of processing one chunk in the `store_memory` loop: the cluster
record queued for upsert, the chunk's own queued vector and cluster id,
and whether a new cluster was created. -/
structure AssignResult where
  cluster_id : ℕ
  cluster_vec : List ℚ
  member_count : ℕ
  importance : ℚ
  chunk_vec : List ℚ
  is_new : Bool
deriving Repr, DecidableEq

/-- server.py lines 125-130: scan the hits in order and take the first
with `score >= 0.85`. -/
def findMatch (hits : List ClusterPoint) : Option ClusterPoint :=
  hits.find? (fun p => simThreshold ≤ p.score)

/-- server.py lines 125-190 (per-chunk cluster assignment): the first hit
with similarity `>= 0.85` is the assigned cluster; its centroid is updated
by `updateCentroid` when the stored vector is present (and the local `vec`
variable is rebound to the updated centroid, which is then also used as
the chunk's queued vector); `member_count` is bumped by 1 and `importance`
by 0.5. Otherwise a fresh cluster with `member_count = 1` and
`importance = 1.0` is queued. -/
def assignCluster (hits : List ClusterPoint) (freshId : ℕ) (vec : List ℚ) :
    AssignResult :=
  match findMatch hits with
  | some c =>
      let newVec :=
        match c.vector with
        | some cv => updateCentroid cv c.member_count vec
        | none => vec
      { cluster_id := c.id
        cluster_vec := newVec
        member_count := c.member_count + 1
        importance := c.importance.getD 1 + 1 / 2
        chunk_vec := newVec
        is_new := false }
  | none =>
      { cluster_id := freshId
        cluster_vec := vec
        member_count := 1
        importance := 1
        chunk_vec := vec
        is_new := true }

/-! SHA-256 (FIPS 180-4), as used by `hash_chunk_id` via
`hashlib.sha256`. Words are naturals reduced modulo `2^32`. -/

/-- Reduce to a 32-bit word. -/
def w32 (x : ℕ) : ℕ := x % 4294967296

/-- Right rotation of a 32-bit word. -/
def rotr (n x : ℕ) : ℕ := w32 ((x >>> n) ||| (x <<< (32 - n)))

/-- SHA-256 Σ₀. -/
def bigS0 (x : ℕ) : ℕ := rotr 2 x ^^^ rotr 13 x ^^^ rotr 22 x

/-- SHA-256 Σ₁. -/
def bigS1 (x : ℕ) : ℕ := rotr 6 x ^^^ rotr 11 x ^^^ rotr 25 x

/-- SHA-256 σ₀. -/
def smallS0 (x : ℕ) : ℕ := rotr 7 x ^^^ rotr 18 x ^^^ (x >>> 3)

/-- SHA-256 σ₁. -/
def smallS1 (x : ℕ) : ℕ := rotr 17 x ^^^ rotr 19 x ^^^ (x >>> 10)

/-- SHA-256 Ch. -/
def chFun (x y z : ℕ) : ℕ := (x &&& y) ^^^ ((x ^^^ 4294967295) &&& z)

/-- SHA-256 Maj. -/
def majFun (x y z : ℕ) : ℕ := (x &&& y) ^^^ (x &&& z) ^^^ (y &&& z)

/-- The 64 SHA-256 round constants, as decimal naturals. -/
def sha256K : List ℕ :=
  [1116352408, 1899447441, 3049323471,
   3921009573, 961987163, 1508970993,
   2453635748, 2870763221, 3624381080,
   310598401, 607225278, 1426881987,
   1925078388, 2162078206, 2614888103,
   3248222580, 3835390401, 4022224774,
   264347078, 604807628, 770255983,
   1249150122, 1555081692, 1996064986,
   2554220882, 2821834349, 2952996808,
   3210313671, 3336571891, 3584528711,
   113926993, 338241895, 666307205,
   773529912, 1294757372, 1396182291,
   1695183700, 1986661051, 2177026350,
   2456956037, 2730485921, 2820302411,
   3259730800, 3345764771, 3516065817,
   3600352804, 4094571909, 275423344,
   430227734, 506948616, 659060556,
   883997877, 958139571, 1322822218,
   1537002063, 1747873779, 1955562222,
   2024104815, 2227730452, 2361852424,
   2428436474, 2756734187, 3204031479,
   3329325298]

/-- An eight-word hash state. -/
structure Hash8 where
  ha : ℕ
  hb : ℕ
  hc : ℕ
  hd : ℕ
  he : ℕ
  hf : ℕ
  hg : ℕ
  hh : ℕ
deriving Repr, DecidableEq

/-- The SHA-256 initial hash value, as decimal naturals. -/
def sha256H0 : Hash8 :=
  ⟨1779033703, 3144134277, 1013904242, 2773480762,
   1359893119, 2600822924, 528734635, 1541459225⟩

/-- One SHA-256 compression round. -/
def roundStep (st : Hash8) (k w : ℕ) : Hash8 :=
  let t1 := st.hh + bigS1 st.he + chFun st.he st.hf st.hg + k + w
  let t2 := bigS0 st.ha + majFun st.ha st.hb st.hc
  ⟨w32 (t1 + t2), st.ha, st.hb, st.hc, w32 (st.hd + t1),
    st.he, st.hf, st.hg⟩

/-- Componentwise modular addition of hash states. -/
def addHash (x y : Hash8) : Hash8 :=
  ⟨w32 (x.ha + y.ha), w32 (x.hb + y.hb), w32 (x.hc + y.hc),
   w32 (x.hd + y.hd), w32 (x.he + y.he), w32 (x.hf + y.hf),
   w32 (x.hg + y.hg), w32 (x.hh + y.hh)⟩

/-- SHA-256 message padding: append `0x80`, zeros up to 56 mod 64 bytes,
then the 64-bit big-endian bit length. -/
def padMessage (msg : List ℕ) : List ℕ :=
  let l := msg.length
  let z := (119 - l % 64) % 64
  let bitLen := 8 * l
  msg ++ 128 :: List.replicate z 0 ++
    (List.range 8).map (fun i => (bitLen >>> (8 * (7 - i))) % 256)

/-- Split a byte list into 64-byte blocks. -/
def toBlocks : List ℕ → List (List ℕ)
  | [] => []
  | a :: t => (a :: t).take 64 :: toBlocks (t.drop 63)
termination_by l => l.length
decreasing_by
  simp only [List.length_drop, List.length_cons]
  omega

/-- The 16 big-endian 32-bit words of a 64-byte block. -/
def blockWords (b : List ℕ) : List ℕ :=
  (List.range 16).map (fun i =>
    b.getD (4 * i) 0 * 16777216 + b.getD (4 * i + 1) 0 * 65536 +
      b.getD (4 * i + 2) 0 * 256 + b.getD (4 * i + 3) 0)

/-- Extend the 16 message words to the 64-entry message schedule. -/
def extendWords (ws : List ℕ) : List ℕ :=
  (List.range 48).foldl
    (fun acc _ =>
      acc ++ [w32 (smallS1 (acc.getD (acc.length - 2) 0) +
        acc.getD (acc.length - 7) 0 +
        smallS0 (acc.getD (acc.length - 15) 0) +
        acc.getD (acc.length - 16) 0)])
    ws

/-- SHA-256 compression of one block. -/
def compressBlock (h0 : Hash8) (block : List ℕ) : Hash8 :=
  let ws := extendWords (blockWords block)
  addHash h0 ((sha256K.zip ws).foldl (fun st kw => roundStep st kw.1 kw.2) h0)

/-- The SHA-256 hash state of a byte message. -/
def sha256Hash (msg : List ℕ) : Hash8 :=
  (toBlocks (padMessage msg)).foldl compressBlock sha256H0

/-- The SHA-256 digest as a 256-bit natural (the big-endian value that
`hexdigest()` prints). -/
def sha256Nat (msg : List ℕ) : ℕ :=
  let s := sha256Hash msg
  ((((((s.ha * 4294967296 + s.hb) * 4294967296 + s.hc) * 4294967296 +
    s.hd) * 4294967296 + s.he) * 4294967296 + s.hf) * 4294967296 +
    s.hg) * 4294967296 + s.hh

/-- The UTF-8 bytes of a string. -/
def strBytes (s : String) : List ℕ :=
  s.toUTF8.toList.map (fun b => b.toNat)

/-- server.py lines 77-87: `hash_chunk_id` hashes the UTF-8 bytes of
`f"{path}:{level}:{context}"` with SHA-256 and parses the first 16 hex
digits of the digest as an integer, i.e. takes the high-order 64 bits. -/
def hash_chunk_id (path level context : String) : ℕ :=
  sha256Nat (strBytes (path ++ ":" ++ level ++ ":" ++ context)) /
    6277101735386680763835789423207666416102355444464034512896

/-- The two Qdrant collections as mutable shared state: the
cluster-centroid collection and the chunk collection. -/
structure Store where
  clusters : List ClusterRecord
  chunks : List ChunkRecord
deriving Repr, DecidableEq

/-- A cluster record viewed as a search hit with a given similarity
score (the vector store returns id, score, vector and payload). -/
def ClusterRecord.toPoint (c : ClusterRecord) (s : ℚ) : ClusterPoint :=
  { id := c.id, score := s, vector := some c.vector
    member_count := c.member_count, importance := some c.importance }

/-- The vector store's centroid search, as invoked by `store_memory`
(lines 116-123) and `query_memory` (lines 234-241): filter the cluster
collection by `level == lvl`, rank by similarity (descending, the
backend's ordering), return the top `limit`. The similarity of the query
against a stored vector is the abstract `sim`. -/
def searchClusters (clusters : List ClusterRecord) (sim : List ℚ → ℚ)
    (lvl : String) (limit : ℕ) : List ClusterPoint :=
  ((((clusters.filter (fun c => c.level = lvl)).map
      (fun c => c.toPoint (sim c.vector))).mergeSort
        (fun a b => decide (b.score ≤ a.score))).take limit)

/-- The chunk scroll of `query_memory` (lines 256-267): filter the chunk
collection by `cluster_id == cid AND level == lvl`, up to `limit`
records. -/
def scrollChunks (chunks : List ChunkRecord) (cid : ℕ) (lvl : String)
    (limit : ℕ) : List ChunkRecord :=
  (chunks.filter (fun c => c.cluster_id = cid ∧ c.level = lvl)).take limit

/-- Qdrant upsert of one point: replace the record with the same id when
present, else append. -/
def upsertCluster (st : List ClusterRecord) (p : ClusterRecord) :
    List ClusterRecord :=
  if st.any (fun c => c.id = p.id) then
    st.map (fun c => if c.id = p.id then p else c)
  else st ++ [p]

/-- Qdrant upsert of one chunk point. -/
def upsertChunk (st : List ChunkRecord) (p : ChunkRecord) :
    List ChunkRecord :=
  if st.any (fun c => c.id = p.id) then
    st.map (fun c => if c.id = p.id then p else c)
  else st ++ [p]

/-- Batched upsert: points applied in order, so a later point with the
same id overwrites an earlier one. -/
def applyClusterUpserts (st : List ClusterRecord)
    (ps : List ClusterRecord) : List ClusterRecord :=
  ps.foldl upsertCluster st

/-- Batched chunk upsert. -/
def applyChunkUpserts (st : List ChunkRecord) (ps : List ChunkRecord) :
    List ChunkRecord :=
  ps.foldl upsertChunk st

/-- A chunk of a `store_memory` request (params.py `Chunk`), after
validation. -/
structure Chunk where
  level : String
  repo_path : String
  context : String
  score : Option ℚ
deriving Repr, DecidableEq

/-- Response shape of `store_memory`. -/
structure StoreResponse where
  error : Option String
  indexed : ℕ
  removed : ℕ
  duration_ms : ℕ
deriving Repr, DecidableEq

/-- Response item of `query_memory` (server.py lines 293-300). -/
structure PackedChunk where
  repo_path : String
  level : String
  context : String
  score : ℚ
deriving Repr, DecidableEq

/-- Response shape of `query_memory`. -/
structure QueryResponse where
  error : Option String
  chunks : List PackedChunk
  truncated : Bool
  tokens : ℕ
deriving Repr, DecidableEq

/-- The external behavior seen by one `store_memory` call: whether
`ensure_collections_exist` succeeds, the outcome of the i-th cluster
search, the i-th fresh cluster id (`uuid.uuid4().int % 2**63`), and the
outcomes of the two batched upserts (`none` = success). -/
structure StoreBackend where
  collectionsOk : Bool
  search : ℕ → List ℚ → String → Except String (List ClusterPoint)
  freshId : ℕ → ℕ
  clusterUpsertErr : Option String
  chunkUpsertErr : Option String

/-- Error response of `store_memory`'s `except` branch (lines 202-209). -/
def errStoreResponse (e : String) : StoreResponse :=
  ⟨some ("Failed to store memory: " ++ e), 0, 0, 0⟩

/-- The `for chunk in chunks` loop of `store_memory` (lines 109-190):
embed the context, derive the chunk id, search the cluster collection at
the chunk's level, assign a cluster, and queue one cluster record and one
chunk record for the deferred upserts. The first search error aborts the
whole loop. `i` numbers the chunks for the backend. -/
def processChunks (b : StoreBackend) (embed : String → List ℚ)
    (commit_id : String) (now : ℚ) :
    List Chunk → ℕ → Except String (List ClusterRecord × List ChunkRecord)
  | [], _ => .ok ([], [])
  | ch :: rest, i =>
    let vec := embed ch.context
    match b.search i vec ch.level with
    | .error e => .error e
    | .ok hits =>
      let r := assignCluster hits (b.freshId i) vec
      let clRec : ClusterRecord :=
        ⟨r.cluster_id, r.cluster_vec, ch.level, r.member_count, r.importance⟩
      let chRec : ChunkRecord :=
        ⟨hash_chunk_id ch.repo_path ch.level ch.context, r.chunk_vec,
          ch.repo_path, ch.level, ch.context, r.cluster_id, commit_id,
          some 0, none, now⟩
      match processChunks b embed commit_id now rest (i + 1) with
      | .error e => .error e
      | .ok (cls, chs) => .ok (clRec :: cls, chRec :: chs)

/-- The `store_memory` handler (server.py lines 91-211): collections check, the
per-chunk loop, then the two batched upserts (clusters first, each
skipped when its queue is empty), with any failure reported as
`indexed: 0` plus an `error` field. Returns the response together with
the resulting state of the two collections. -/
def storeMemory (st : Store) (b : StoreBackend) (embed : String → List ℚ)
    (commit_id : String) (now : ℚ) (chunks : List Chunk) :
    StoreResponse × Store :=
  if b.collectionsOk = false then
    (⟨some "Failed to create necessary collections", 0, 0, 0⟩, st)
  else
    match processChunks b embed commit_id now chunks 0 with
    | .error e => (errStoreResponse e, st)
    | .ok (cls, chs) =>
      let step1 : Except String Store :=
        if cls.isEmpty then .ok st
        else
          match b.clusterUpsertErr with
          | some e => .error e
          | none => .ok { st with clusters := applyClusterUpserts st.clusters cls }
      match step1 with
      | .error e => (errStoreResponse e, st)
      | .ok st1 =>
        let step2 : Except String Store :=
          if chs.isEmpty then .ok st1
          else
            match b.chunkUpsertErr with
            | some e => .error e
            | none => .ok { st1 with chunks := applyChunkUpserts st1.chunks chs }
        match step2 with
        | .error e => (errStoreResponse e, st1)
        | .ok st2 => (⟨none, chunks.length, 0, 0⟩, st2)

/-- The backend a `store_memory` call sees when the vector store is up
and no concurrent writer interferes: every per-chunk search runs against
the cluster collection as it was when the call began (all upserts are
deferred to the end of the loop), with the code's `limit=5` and level
filter. -/
def realStoreBackend (st : Store) (sim : List ℚ → List ℚ → ℚ)
    (fresh : ℕ → ℕ) : StoreBackend :=
  { collectionsOk := true
    search := fun _ vec lvl =>
      .ok (searchClusters st.clusters (sim vec) lvl clusterSearchLimit)
    freshId := fresh
    clusterUpsertErr := none
    chunkUpsertErr := none }

/-- A fault-free `store_memory` call against state `st`. -/
def storeMemoryRun (st : Store) (sim : List ℚ → List ℚ → ℚ)
    (fresh : ℕ → ℕ) (embed : String → List ℚ) (commit_id : String)
    (now : ℚ) (chunks : List Chunk) : StoreResponse × Store :=
  storeMemory st (realStoreBackend st sim fresh) embed commit_id now chunks

/-- The external behavior seen by one `query_memory` call. -/
structure QueryBackend where
  collectionsOk : Bool
  search : Except String (List ClusterPoint)
  scroll : ℕ → Except String (List ChunkRecord)

/-- The per-cluster scroll loop of `query_memory` (lines 252-268):
`candidate_chunks.extend(...)` cluster by cluster; the first scroll
failure aborts the loop. -/
def collectCandidates (scroll : ℕ → Except String (List ChunkRecord)) :
    List ClusterPoint → Except String (List ChunkRecord)
  | [] => .ok []
  | c :: rest =>
    match scroll c.id with
    | .error e => .error e
    | .ok chs =>
      match collectCandidates scroll rest with
      | .error e => .error e
      | .ok more => .ok (chs ++ more)

/-- The ranking key of server.py lines 278-284:
`payload.get("access_count", 0) + payload.get("importance", 1.0)`. -/
def chunkRank (c : ChunkRecord) : ℚ :=
  (c.access_count.getD 0 : ℚ) + c.importance.getD 1

/-- Count of maximal non-whitespace runs in a character list; the flag
records whether the previous character was inside a word. -/
def countWords : List Char → Bool → ℕ
  | [], _ => 0
  | ch :: rest, inWord =>
    if ch.isWhitespace then countWords rest false
    else (if inWord then 0 else 1) + countWords rest true

/-- Python's `len(context.split())`: the number of whitespace-delimited
words (maximal non-whitespace runs; leading, trailing and repeated
whitespace contribute nothing). -/
def wordCount (s : String) : ℕ := countWords s.data false

/-- The greedy packing loop of server.py lines 286-301: walk the sorted
candidates accumulating `token_count`; break on the first candidate that
would push the total past `max_tokens`; each packed item carries the
placeholder score 1.0. Returns the pack and the final `token_count`. -/
def packChunks (maxTokens : ℕ) :
    List ChunkRecord → ℕ → List PackedChunk × ℕ
  | [], tot => ([], tot)
  | c :: rest, tot =>
    let t := wordCount c.context
    if maxTokens < tot + t then ([], tot)
    else
      let (ps, tot2) := packChunks maxTokens rest (tot + t)
      (⟨c.repo_path, c.level, c.context, 1⟩ :: ps, tot2)

/-- The `query_memory` handler (server.py lines 215-307) over an abstract backend:
collections check, centroid search, per-cluster scroll, stable sort by
`chunkRank` descending, greedy pack, and
`truncated = (token_count >= max_tokens)`. -/
def queryMemory (b : QueryBackend) (maxTokens : ℕ) : QueryResponse :=
  if b.collectionsOk = false then
    ⟨some "Failed to create necessary collections", [], false, 0⟩
  else
    match b.search with
    | .error e => ⟨some ("Failed to query memory: " ++ e), [], false, 0⟩
    | .ok hits =>
      match collectCandidates b.scroll hits with
      | .error e => ⟨some ("Failed to retrieve chunks: " ++ e), [], false, 0⟩
      | .ok cands =>
        let sorted := cands.mergeSort (fun a b => decide (chunkRank b ≤ chunkRank a))
        let p := packChunks maxTokens sorted 0
        ⟨none, p.1, decide (maxTokens ≤ p.2), p.2⟩

/-- Python's `x or default` for the optional numeric parameters
(`params.max_tokens or settings.default_max_tokens` and
`params.k or settings.default_k`): `None` and `0` are falsy. -/
def orDefault (x : Option ℕ) (d : ℕ) : ℕ :=
  match x with
  | none => d
  | some n => if n = 0 then d else n

/-- Python's `params.context_levels or settings.default_context_levels`:
`None` and the empty list are falsy. -/
def effLevels (cl : Option (List String)) : List String :=
  match cl with
  | none => DEFAULT_CONTEXT_LEVELS
  | some l => if l.isEmpty then DEFAULT_CONTEXT_LEVELS else l

/-- The backend a fault-free `query_memory` call sees against state
`st`: the centroid search filtered to `level == levels[0]` with
`limit=10`, and the chunk scroll filtered by
`cluster_id == cluster.id AND level == levels[0]` with `limit=k`. -/
def realQueryBackend (st : Store) (sim : List ℚ → ℚ) (lvl : String)
    (k : ℕ) : QueryBackend :=
  { collectionsOk := true
    search := .ok (searchClusters st.clusters sim lvl querySearchLimit)
    scroll := fun cid => .ok (scrollChunks st.chunks cid lvl k) }

/-- A fault-free `query_memory` call against state `st`, with the
parameter defaulting of server.py lines 225-228. -/
def queryMemoryRun (st : Store) (sim : List ℚ → ℚ)
    (context_levels : Option (List String)) (max_tokens k : Option ℕ) :
    QueryResponse :=
  let lvl := (effLevels context_levels).headD ""
  queryMemory (realQueryBackend st sim lvl (orDefault k 24))
    (orDefault max_tokens 1000)

/-- params.py lines 8-20, `check_levels`: collect the entries of
`context_levels` not among the allowed levels (`None` and the empty list
yield none) and raise on any. -/
def check_levels (context_levels : Option (List String)) :
    Except String Bool :=
  let invalid :=
    match context_levels with
    | none => []
    | some ls => ls.filter (fun l => decide (l ∉ DEFAULT_CONTEXT_LEVELS))
  if invalid.isEmpty then .ok true
  else
    .error ("Invalid context level(s): " ++ String.intercalate ", " invalid
      ++ ". Allowed values are: " ++
      String.intercalate ", " DEFAULT_CONTEXT_LEVELS)

/-- The pydantic `ge=1, le=100` constraint on `QueryMemoryParams.k`
(`None` is allowed for an `Optional` field). -/
def checkK (k : Option ℤ) : Except String Unit :=
  match k with
  | some kk =>
    if kk < 1 then .error "k: Input should be greater than or equal to 1"
    else if 100 < kk then
      .error "k: Input should be less than or equal to 100"
    else .ok ()
  | none => .ok ()

/-- Validation of `QueryMemoryParams` (params.py lines 23-46): the
`before` validator checks `context_levels`, then the field constraints
`max_tokens ∈ [50, 4096]` and `k ∈ [1, 100]` apply to provided values. -/
def validateQueryParams (max_tokens : Option ℤ)
    (context_levels : Option (List String)) (k : Option ℤ) :
    Except String Unit :=
  match check_levels context_levels with
  | .error e => .error e
  | .ok _ =>
    match max_tokens with
    | some m =>
      if m < 50 then
        .error "max_tokens: Input should be greater than or equal to 50"
      else if 4096 < m then
        .error "max_tokens: Input should be less than or equal to 4096"
      else checkK k
    | none => checkK k

/-- Validation of one `Chunk` (params.py lines 57-67): a `level` outside
the five defined levels raises. -/
def validateChunkLevel (ch : Chunk) : Except String Unit :=
  if ch.level ∈ DEFAULT_CONTEXT_LEVELS then .ok ()
  else
    .error ("Invalid context level: " ++ ch.level ++
      ". Allowed values are: " ++
      String.intercalate ", " DEFAULT_CONTEXT_LEVELS)

/-- Validation of the chunk list of `StoreMemoryParams`. -/
def validateChunks : List Chunk → Except String Unit
  | [] => .ok ()
  | c :: rest =>
    match validateChunkLevel c with
    | .error e => .error e
    | .ok _ => validateChunks rest

/-- The tool boundary for `store_memory`: pydantic validates the request
before the handler body runs, so a validation failure produces an error
without touching either collection. -/
def storeMemoryTool (st : Store) (b : StoreBackend)
    (embed : String → List ℚ) (commit_id : String) (now : ℚ)
    (chunks : List Chunk) : StoreResponse × Store :=
  match validateChunks chunks with
  | .error e => (⟨some e, 0, 0, 0⟩, st)
  | .ok _ => storeMemory st b embed commit_id now chunks

/-- The tool boundary for `query_memory`: parameter validation precedes
the handler body and any I/O. -/
def queryMemoryTool (st : Store) (sim : List ℚ → ℚ)
    (max_tokens : Option ℤ) (context_levels : Option (List String))
    (k : Option ℤ) : QueryResponse :=
  match validateQueryParams max_tokens context_levels k with
  | .error e => ⟨some e, [], false, 0⟩
  | .ok _ =>
    queryMemoryRun st sim context_levels (max_tokens.map Int.toNat)
      (k.map Int.toNat)

/-- One successful assignment of a vector to an existing cluster,
as one `store_memory` iteration sees it: the cluster search returns the
cluster's own record as a hit with similarity `s`, and `assignCluster`
produces the updated record (the upserted payload's level is the chunk's
level, which equals the cluster's by the search filter). -/
def evolveCluster (c : ClusterRecord) (sv : ℚ × List ℚ) : ClusterRecord :=
  let r := assignCluster [c.toPoint sv.1] 0 sv.2
  ⟨r.cluster_id, r.cluster_vec, c.level, r.member_count, r.importance⟩

/-- The cluster created by a `store_memory` iteration whose search found
no hit at or above the threshold. -/
def initCluster (freshId : ℕ) (level : String) (v : List ℚ) :
    ClusterRecord :=
  let r := assignCluster [] freshId v
  ⟨r.cluster_id, r.cluster_vec, level, r.member_count, r.importance⟩

/-! Theorems. -/

/-- All eight words of a hash state are 32-bit. -/
def Hash8.Bounded (s : Hash8) : Prop :=
  s.ha < 4294967296 ∧ s.hb < 4294967296 ∧ s.hc < 4294967296 ∧
  s.hd < 4294967296 ∧ s.he < 4294967296 ∧ s.hf < 4294967296 ∧
  s.hg < 4294967296 ∧ s.hh < 4294967296

lemma w32_lt (x : ℕ) : w32 x < 4294967296 :=
  Nat.mod_lt _ (by norm_num)

lemma addHash_bounded (x y : Hash8) : (addHash x y).Bounded := by
  refine ⟨?_, ?_, ?_, ?_, ?_, ?_, ?_, ?_⟩ <;> exact w32_lt _

lemma compressBlock_bounded (h0 : Hash8) (b : List ℕ) :
    (compressBlock h0 b).Bounded := by
  unfold compressBlock
  exact addHash_bounded _ _

lemma foldl_compressBlock_bounded (blocks : List (List ℕ)) (h0 : Hash8)
    (hb : h0.Bounded) : (blocks.foldl compressBlock h0).Bounded := by
  induction blocks generalizing h0 with
  | nil => exact hb
  | cons b rest ih =>
    rw [List.foldl_cons]
    exact ih _ (compressBlock_bounded _ _)

lemma sha256Hash_bounded (msg : List ℕ) : (sha256Hash msg).Bounded :=
  foldl_compressBlock_bounded _ _ (by constructor <;> norm_num [sha256H0])

lemma word_step_lt {x y M : ℕ} (hx : x < M) (hy : y < 4294967296) :
    x * 4294967296 + y < M * 4294967296 := by
  have h1 : x * 4294967296 + y < (x + 1) * 4294967296 := by
    rw [add_mul, one_mul]; omega
  have h2 : (x + 1) * 4294967296 ≤ M * 4294967296 :=
    Nat.mul_le_mul_right _ hx
  omega

lemma sha256Nat_lt (msg : List ℕ) : sha256Nat msg < 2 ^ 256 := by
  obtain ⟨h1, h2, h3, h4, h5, h6, h7, h8⟩ := sha256Hash_bounded msg
  unfold sha256Nat
  have b1 := word_step_lt h1 h2
  have b2 := word_step_lt b1 h3
  have b3 := word_step_lt b2 h4
  have b4 := word_step_lt b3 h5
  have b5 := word_step_lt b4 h6
  have b6 := word_step_lt b5 h7
  have b7 := word_step_lt b6 h8
  calc _ < 4294967296 * 4294967296 * 4294967296 * 4294967296 *
      4294967296 * 4294967296 * 4294967296 * 4294967296 := b7
    _ = 2 ^ 256 := by norm_num

/-- C8: `hash_chunk_id` is a pure deterministic function of the triple,
equal to the high-order 64 bits of the SHA-256 digest of the UTF-8
concatenation `"{repo_path}:{level}:{context}"`, and always fits an
unsigned 64-bit vector-store id. -/
theorem hash_chunk_id_spec (p l c : String) :
    hash_chunk_id p l c = hash_chunk_id p l c ∧
    hash_chunk_id p l c =
      sha256Nat (strBytes (p ++ ":" ++ l ++ ":" ++ c)) / 2 ^ 192 ∧
    hash_chunk_id p l c < 2 ^ 64 := by
  refine ⟨rfl, by norm_num [hash_chunk_id], ?_⟩
  unfold hash_chunk_id
  rw [Nat.div_lt_iff_lt_mul (by norm_num)]
  calc sha256Nat (strBytes (p ++ ":" ++ l ++ ":" ++ c)) < 2 ^ 256 :=
      sha256Nat_lt _
    _ = 2 ^ 64 * 6277101735386680763835789423207666416102355444464034512896 := by
      norm_num

lemma findMatch_prefix (pre : List ClusterPoint) (c : ClusterPoint)
    (post : List ClusterPoint)
    (hpre : ∀ p ∈ pre, p.score < simThreshold)
    (hc : simThreshold ≤ c.score) :
    findMatch (pre ++ c :: post) = some c := by
  induction pre with
  | nil =>
    exact List.find?_cons_of_pos _ (decide_eq_true hc)
  | cons a t ih =>
    rw [List.cons_append]
    unfold findMatch
    rw [List.find?_cons_of_neg _ (by
      simpa using not_le.mpr (hpre a (List.mem_cons_self a t)))]
    exact ih fun p hp => hpre p (List.mem_cons_of_mem a hp)

lemma findMatch_none (hits : List ClusterPoint)
    (hall : ∀ p ∈ hits, p.score < simThreshold) :
    findMatch hits = none := by
  rw [findMatch, List.find?_eq_none]
  intro p hp
  simpa using not_le.mpr (hall p hp)

/-- C2: among the (at most 5) hits of the cluster search, scanned in the
order returned, the first with similarity `>= 0.85` (inclusive) is the
assigned cluster, whose `member_count` is bumped by 1 and `importance`
by 0.5; when every hit is below the threshold a new cluster with
`member_count = 1` and `importance = 1.0` is created under the fresh
id. -/
theorem assignCluster_scan_spec (hits : List ClusterPoint) (freshId : ℕ)
    (vec : List ℚ) (hlim : hits.length ≤ clusterSearchLimit) :
    (∀ pre c post, hits = pre ++ c :: post →
        (∀ p ∈ pre, p.score < simThreshold) → simThreshold ≤ c.score →
          findMatch hits = some c ∧
          (assignCluster hits freshId vec).is_new = false ∧
          (assignCluster hits freshId vec).cluster_id = c.id ∧
          (assignCluster hits freshId vec).member_count =
            c.member_count + 1 ∧
          (assignCluster hits freshId vec).importance =
            c.importance.getD 1 + 1 / 2) ∧
    ((∀ p ∈ hits, p.score < simThreshold) →
        assignCluster hits freshId vec =
          { cluster_id := freshId, cluster_vec := vec, member_count := 1,
            importance := 1, chunk_vec := vec, is_new := true }) ∧
    (∀ p : ClusterPoint,
        findMatch [p] = if simThreshold ≤ p.score then some p else none) := by
  refine ⟨?_, ?_, ?_⟩
  · rintro pre c post rfl hpre hc
    have hf := findMatch_prefix pre c post hpre hc
    refine ⟨hf, ?_, ?_, ?_, ?_⟩ <;> simp [assignCluster, hf]
  · intro hall
    simp [assignCluster, findMatch_none hits hall]
  · intro p
    by_cases hp : simThreshold ≤ p.score
    · rw [if_pos hp]
      exact List.find?_cons_of_pos _ (decide_eq_true hp)
    · rw [if_neg hp]
      exact findMatch_none [p] (by simpa using not_le.mp hp)

/-- Witness for C2 at concrete inputs: in a two-hit list with scores
0.84 and 0.85 the second (exactly-threshold) hit is assigned; a single
hit with score 0.8499 is below the threshold and a fresh cluster is
created. -/
theorem assignCluster_scan_spec_witness :
    findMatch [(⟨1, 84 / 100, none, 2, none⟩ : ClusterPoint),
        ⟨2, 85 / 100, some [1], 3, some 2⟩] =
      some ⟨2, 85 / 100, some [1], 3, some 2⟩ ∧
    (assignCluster [(⟨1, 84 / 100, none, 2, none⟩ : ClusterPoint),
        ⟨2, 85 / 100, some [1], 3, some 2⟩] 9 [1]).cluster_id = 2 ∧
    (assignCluster [(⟨1, 84 / 100, none, 2, none⟩ : ClusterPoint),
        ⟨2, 85 / 100, some [1], 3, some 2⟩] 9 [1]).member_count = 4 ∧
    assignCluster [(⟨7, 8499 / 10000, none, 1, none⟩ : ClusterPoint)] 9 [1] =
      { cluster_id := 9, cluster_vec := [1], member_count := 1,
        importance := 1, chunk_vec := [1], is_new := true } := by
  have h1 := assignCluster_scan_spec
    [(⟨1, 84 / 100, none, 2, none⟩ : ClusterPoint),
      ⟨2, 85 / 100, some [1], 3, some 2⟩] 9 [1]
    (by norm_num [clusterSearchLimit])
  have h2 := assignCluster_scan_spec
    [(⟨7, 8499 / 10000, none, 1, none⟩ : ClusterPoint)] 9 [1]
    (by norm_num [clusterSearchLimit])
  have hm := h1.1 [⟨1, 84 / 100, none, 2, none⟩]
    ⟨2, 85 / 100, some [1], 3, some 2⟩ [] rfl
    (by
      intro p hp
      simp only [List.mem_singleton] at hp
      subst hp
      norm_num [simThreshold])
    (by norm_num [simThreshold])
  have hn := h2.2.1 (by
    intro p hp
    simp only [List.mem_singleton] at hp
    subst hp
    norm_num [simThreshold])
  exact ⟨hm.1, hm.2.2.1, hm.2.2.2.1, hn⟩

lemma vecSmul_one (x : List ℚ) : vecSmul 1 x = x := by
  simp [vecSmul]

lemma vecSmul_smul (a b : ℚ) (x : List ℚ) :
    vecSmul a (vecSmul b x) = vecSmul (a * b) x := by
  simp [vecSmul, List.map_map, Function.comp, mul_assoc]

lemma length_updateCentroid (old v : List ℚ) (mc : ℕ)
    (h : v.length = old.length) :
    (updateCentroid old mc v).length = old.length := by
  simp [updateCentroid, h]

lemma smul_updateCentroid (old v : List ℚ) (mc : ℕ)
    (h : v.length = old.length) :
    vecSmul ((mc : ℚ) + 1) (updateCentroid old mc v) =
      vecAdd (vecSmul (mc : ℚ) old) v := by
  induction old generalizing v with
  | nil =>
    cases v with
    | nil => simp [updateCentroid, vecSmul, vecAdd]
    | cons w wt => exact absurd h (by simp)
  | cons o ot ih =>
    cases v with
    | nil => exact absurd h (by simp)
    | cons w wt =>
      simp only [updateCentroid, vecSmul, vecAdd, List.zipWith_cons_cons,
        List.map_cons]
      have hne : (mc : ℚ) + 1 ≠ 0 := by positivity
      refine congrArg₂ _ ?_ ?_
      · field_simp
        ring
      · have := ih wt (by simpa using h)
        simpa [updateCentroid, vecSmul, vecAdd] using this

lemma evolve_matched (c : ClusterRecord) (sv : ℚ × List ℚ)
    (h : simThreshold ≤ sv.1) :
    evolveCluster c sv =
      ⟨c.id, updateCentroid c.vector c.member_count sv.2, c.level,
        c.member_count + 1, c.importance + 1 / 2⟩ := by
  have hf : findMatch
      [(⟨c.id, sv.1, some c.vector, c.member_count, some c.importance⟩ :
        ClusterPoint)] =
      some (⟨c.id, sv.1, some c.vector, c.member_count,
        some c.importance⟩ : ClusterPoint) :=
    List.find?_cons_of_pos _ (decide_eq_true h)
  simp [evolveCluster, assignCluster, ClusterRecord.toPoint, hf]

lemma initCluster_eq (freshId : ℕ) (level : String) (v : List ℚ) :
    initCluster freshId level v = ⟨freshId, v, level, 1, 1⟩ := by
  simp [initCluster, assignCluster, findMatch]

lemma evolve_fold_spec (svs : List (ℚ × List ℚ)) (c : ClusterRecord)
    (hs : ∀ sv ∈ svs, simThreshold ≤ sv.1)
    (hd : ∀ sv ∈ svs, sv.2.length = c.vector.length) :
    (svs.foldl evolveCluster c).member_count =
      c.member_count + svs.length ∧
    (svs.foldl evolveCluster c).importance =
      c.importance + svs.length * (1 / 2 : ℚ) ∧
    (svs.foldl evolveCluster c).vector.length = c.vector.length ∧
    vecSmul ((c.member_count + svs.length : ℕ) : ℚ)
        (svs.foldl evolveCluster c).vector =
      vecSumFrom (vecSmul (c.member_count : ℚ) c.vector)
        (svs.map Prod.snd) := by
  induction svs generalizing c with
  | nil => simp [vecSumFrom]
  | cons sv rest ih =>
    have hsv := hs sv (List.mem_cons_self sv rest)
    have hlen := hd sv (List.mem_cons_self sv rest)
    rw [List.foldl_cons, evolve_matched c sv hsv]
    obtain ⟨h1, h2, h3, h4⟩ := ih
      ⟨c.id, updateCentroid c.vector c.member_count sv.2, c.level,
        c.member_count + 1, c.importance + 1 / 2⟩
      (fun q hq => hs q (List.mem_cons_of_mem sv hq))
      (fun q hq => by
        simpa [length_updateCentroid _ _ _ hlen] using
          hd q (List.mem_cons_of_mem sv hq))
    dsimp only at h1 h2 h3 h4
    refine ⟨?_, ?_, ?_, ?_⟩
    · rw [h1]
      simp only [List.length_cons]
      omega
    · rw [h2]
      simp only [List.length_cons]
      push_cast
      ring
    · rw [h3]
      exact length_updateCentroid _ _ _ hlen
    · have hidx : c.member_count + (sv :: rest).length =
          c.member_count + 1 + rest.length := by
        simp only [List.length_cons]
        omega
      rw [hidx, h4]
      have hstep : vecSmul (((c.member_count + 1 : ℕ)) : ℚ)
          (updateCentroid c.vector c.member_count sv.2) =
          vecAdd (vecSmul (c.member_count : ℚ) c.vector) sv.2 := by
        push_cast
        exact smul_updateCentroid c.vector sv.2 c.member_count hlen
      simp only [vecSumFrom, List.map_cons, List.foldl_cons]
      rw [hstep]

/-- C1: starting from the cluster created for `v1` and performing one
successful assignment (similarity `>= 0.85` against the evolving
centroid) for each of `v2..vN`, the cluster record ends with
`member_count == N`, `importance == 1.0 + 0.5*(N-1)`, and a centroid
equal to the arithmetic mean of all N assigned vectors, where every step
is the incremental update `new_centroid = (old_centroid * member_count +
new_vector) / (member_count + 1)` and the mean is never recomputed from
scratch. -/
theorem running_mean_invariant (level : String) (freshId : ℕ)
    (v1 : List ℚ) (svs : List (ℚ × List ℚ))
    (hs : ∀ sv ∈ svs, simThreshold ≤ sv.1)
    (hd : ∀ sv ∈ svs, sv.2.length = v1.length) :
    (svs.foldl evolveCluster (initCluster freshId level v1)).member_count =
      svs.length + 1 ∧
    (svs.foldl evolveCluster (initCluster freshId level v1)).importance =
      1 + ((svs.length + 1 : ℚ) - 1) * (1 / 2) ∧
    (svs.foldl evolveCluster (initCluster freshId level v1)).vector =
      vecSmul (1 / (svs.length + 1 : ℚ))
        (vecSumFrom v1 (svs.map Prod.snd)) ∧
    (∀ (d : ClusterRecord) (sv : ℚ × List ℚ), simThreshold ≤ sv.1 →
      (evolveCluster d sv).vector =
        updateCentroid d.vector d.member_count sv.2) := by
  obtain ⟨h1, h2, h3, h4⟩ := evolve_fold_spec svs
    (initCluster freshId level v1) hs
    (by simpa [initCluster_eq] using hd)
  simp only [initCluster_eq] at h1 h2 h3 h4 ⊢
  have hN : ((svs.length + 1 : ℚ)) ≠ 0 := by positivity
  refine ⟨by rw [h1]; omega, by rw [h2]; ring, ?_, ?_⟩
  · rw [Nat.cast_one, vecSmul_one] at h4
    have h4' : vecSmul ((svs.length + 1 : ℚ))
        (svs.foldl evolveCluster
          (⟨freshId, v1, level, 1, 1⟩ : ClusterRecord)).vector =
        vecSumFrom v1 (svs.map Prod.snd) := by
      have hc : ((1 + svs.length : ℕ) : ℚ) = (svs.length + 1 : ℚ) := by
        push_cast
        ring
      rw [← hc, h4]
    calc (svs.foldl evolveCluster
          (⟨freshId, v1, level, 1, 1⟩ : ClusterRecord)).vector
        = vecSmul 1 (svs.foldl evolveCluster
            (⟨freshId, v1, level, 1, 1⟩ : ClusterRecord)).vector :=
          (vecSmul_one _).symm
      _ = vecSmul (1 / (svs.length + 1 : ℚ) * (svs.length + 1 : ℚ))
            (svs.foldl evolveCluster
              (⟨freshId, v1, level, 1, 1⟩ : ClusterRecord)).vector := by
          rw [one_div_mul_cancel hN]
      _ = vecSmul (1 / (svs.length + 1 : ℚ))
            (vecSmul ((svs.length + 1 : ℚ))
              (svs.foldl evolveCluster
                (⟨freshId, v1, level, 1, 1⟩ : ClusterRecord)).vector) :=
          (vecSmul_smul _ _ _).symm
      _ = vecSmul (1 / (svs.length + 1 : ℚ))
            (vecSumFrom v1 (svs.map Prod.snd)) := by rw [h4']
  · intro d sv h
    rw [evolve_matched d sv h]

/-- Witness for C1: three vectors in ℚ², created with `[1, 0]` then
assigned `[0, 1]` (similarity 0.9) and `[1, 1]` (similarity 1): the
cluster ends with `member_count = 3`, `importance = 2.0`, and centroid
`[2/3, 2/3]`, the mean of the three vectors. -/
theorem running_mean_invariant_witness :
    ([( (9 : ℚ) / 10, [0, 1]), (1, [1, 1])].foldl evolveCluster
      (initCluster 0 "file" [1, 0])).member_count = 3 ∧
    ([( (9 : ℚ) / 10, [0, 1]), (1, [1, 1])].foldl evolveCluster
      (initCluster 0 "file" [1, 0])).importance = 2 ∧
    ([( (9 : ℚ) / 10, [0, 1]), (1, [1, 1])].foldl evolveCluster
      (initCluster 0 "file" [1, 0])).vector = [2 / 3, 2 / 3] := by
  obtain ⟨h1, h2, h3, _⟩ := running_mean_invariant "file" 0 [1, 0]
    [((9 : ℚ) / 10, [0, 1]), (1, [1, 1])]
    (by
      intro sv hsv
      simp only [List.mem_cons, List.not_mem_nil, or_false] at hsv
      rcases hsv with rfl | rfl
      · norm_num [simThreshold]
      · norm_num [simThreshold])
    (by
      intro sv hsv
      simp only [List.mem_cons, List.not_mem_nil, or_false] at hsv
      rcases hsv with rfl | rfl
      · rfl
      · rfl)
  refine ⟨by simpa using h1, ?_, ?_⟩
  · rw [h2]
    norm_num
  · rw [h3]
    norm_num [vecSumFrom, vecAdd, vecSmul]

/-- C3: in `store_memory`, the local variable `vec` is rebound to the
updated centroid (lines 146-150) before being used as the chunk's queued
vector (line 178). Evaluated at a concrete input — a cluster with
centroid `[1, 0]`, `member_count = 1`, matched with similarity 0.9 by an
incoming embedding `[0, 1]` — the queued chunk vector is the blended
centroid `[1/2, 1/2]`, not the incoming embedding `[0, 1]`: the chunk
collection does not receive the embedding of the chunk's own context. -/
theorem chunk_vector_centroid_divergence :
    (assignCluster [(⟨3, 9 / 10, some [1, 0], 1, some 1⟩ : ClusterPoint)]
      7 [0, 1]).chunk_vec = [1 / 2, 1 / 2] ∧
    (assignCluster [(⟨3, 9 / 10, some [1, 0], 1, some 1⟩ : ClusterPoint)]
      7 [0, 1]).chunk_vec ≠ [0, 1] ∧
    (assignCluster [] 7 [0, 1]).chunk_vec = [0, 1] ∧
    (assignCluster [(⟨3, 9 / 10, none, 1, some 1⟩ : ClusterPoint)]
      7 [0, 1]).chunk_vec = [0, 1] := by
  have hf : findMatch [(⟨3, 9 / 10, some [1, 0], 1, some 1⟩ :
      ClusterPoint)] =
      some (⟨3, 9 / 10, some [1, 0], 1, some 1⟩ : ClusterPoint) :=
    List.find?_cons_of_pos _ (by norm_num [simThreshold])
  have hf2 : findMatch [(⟨3, 9 / 10, none, 1, some 1⟩ : ClusterPoint)] =
      some (⟨3, 9 / 10, none, 1, some 1⟩ : ClusterPoint) :=
    List.find?_cons_of_pos _ (by norm_num [simThreshold])
  refine ⟨?_, ?_, ?_, ?_⟩
  · simp [assignCluster, hf, updateCentroid]
    norm_num
  · simp [assignCluster, hf, updateCentroid]
  · simp [assignCluster, findMatch]
  · simp [assignCluster, hf2]

lemma packChunks_total_le (B : ℕ) (l : List ChunkRecord) (tot : ℕ)
    (h : tot ≤ B) : (packChunks B l tot).2 ≤ B := by
  induction l generalizing tot with
  | nil => simpa [packChunks] using h
  | cons c rest ih =>
    by_cases hc : B < tot + wordCount c.context
    · simpa [packChunks, hc] using h
    · simpa [packChunks, hc] using ih (tot + wordCount c.context) (by omega)

lemma packChunks_len_mono (B1 B2 : ℕ) (hB : B1 ≤ B2)
    (l : List ChunkRecord) (tot : ℕ) :
    (packChunks B1 l tot).1.length ≤ (packChunks B2 l tot).1.length := by
  induction l generalizing tot with
  | nil => simp [packChunks]
  | cons c rest ih =>
    by_cases h1 : B1 < tot + wordCount c.context
    · simp [packChunks, h1]
    · have h2 : ¬ B2 < tot + wordCount c.context := by omega
      simpa [packChunks, h1, h2] using ih (tot + wordCount c.context)

/-- C4: the packer's final token count never exceeds the budget, and
enlarging the budget never decreases the number of packed items. -/
theorem pack_budget_monotone (cands : List ChunkRecord) (B1 B2 : ℕ)
    (h : B1 < B2) :
    (packChunks B1 cands 0).2 ≤ B1 ∧
    (packChunks B1 cands 0).1.length ≤ (packChunks B2 cands 0).1.length := by
  exact ⟨packChunks_total_le B1 cands 0 (Nat.zero_le B1),
    packChunks_len_mono B1 B2 (Nat.le_of_lt h) cands 0⟩

/-- Witness for C4 at a concrete candidate list and budgets 2 < 5. -/
theorem pack_budget_monotone_witness :
    (2 : ℕ) < 5 ∧
    (packChunks 2 [⟨1, [1], "/a", "file", "one two three", 0, "c", some 0,
      none, 0⟩] 0).2 ≤ 2 ∧
    (packChunks 2 [⟨1, [1], "/a", "file", "one two three", 0, "c", some 0,
      none, 0⟩] 0).1.length ≤
      (packChunks 5 [⟨1, [1], "/a", "file", "one two three", 0, "c",
        some 0, none, 0⟩] 0).1.length := by
  refine ⟨by norm_num, ?_⟩
  exact pack_budget_monotone
    [⟨1, [1], "/a", "file", "one two three", 0, "c", some 0, none, 0⟩]
    2 5 (by norm_num)

/-- C5: `query_memory` reports `truncated = (token_count >= max_tokens)`
computed after the packing loop on every path (error paths report
`tokens = 0`, and `0 >= max_tokens` is false for any positive budget);
when the first sorted candidate alone exceeds the budget the loop stops
at once with `token_count = 0`, so the response carries no chunks,
`tokens = 0` and `truncated = false` even though every candidate was
dropped. -/
theorem query_truncated_semantics (b : QueryBackend) (maxTokens : ℕ)
    (c : ChunkRecord) (rest : List ChunkRecord)
    (h0 : 0 < maxTokens) (hover : maxTokens < wordCount c.context) :
    ((queryMemory b maxTokens).truncated =
      decide (maxTokens ≤ (queryMemory b maxTokens).tokens)) ∧
    packChunks maxTokens (c :: rest) 0 = ([], 0) ∧
    (∀ (b2 : QueryBackend) (hits : List ClusterPoint),
      b2.collectionsOk = true → b2.search = Except.ok hits →
      collectCandidates b2.scroll hits = Except.ok [c] →
      queryMemory b2 maxTokens = ⟨none, [], false, 0⟩) := by
  have hnot : ¬ (maxTokens ≤ 0) := by omega
  refine ⟨?_, ?_, ?_⟩
  · unfold queryMemory
    by_cases hcol : b.collectionsOk = false
    · simp [hcol, hnot]
    · rw [if_neg hcol]
      cases hsearch : b.search with
      | error e => simp [hnot]
      | ok hits =>
        cases hcand : collectCandidates b.scroll hits with
        | error e => simp [hcand, hnot]
        | ok cands => simp [hcand]
  · simp [packChunks, hover]
  · intro b2 hits hcol hsearch hcand
    unfold queryMemory
    rw [if_neg (by simp [hcol]), hsearch]
    simp [hcand, packChunks, hover, hnot]

/-- Witness for C5: a backend whose single cluster holds one chunk with
two-word context, queried with budget 1: the chunk is dropped, yet the
response is `{chunks: [], truncated: false, tokens: 0}`. -/
theorem query_truncated_semantics_witness :
    (1 : ℕ) < wordCount "a b" ∧
    queryMemory
      ⟨true, Except.ok [⟨0, 0, none, 0, none⟩],
        fun _ => Except.ok [⟨1, [1], "/a", "file", "a b", 0, "c", some 0,
          none, 0⟩]⟩ 1 =
      ⟨none, [], false, 0⟩ := by
  have h := query_truncated_semantics
    ⟨true, Except.ok [⟨0, 0, none, 0, none⟩],
      fun _ => Except.ok [⟨1, [1], "/a", "file", "a b", 0, "c", some 0,
        none, 0⟩]⟩ 1
    ⟨1, [1], "/a", "file", "a b", 0, "c", some 0, none, 0⟩ []
    (by norm_num) (by decide)
  exact ⟨by decide, h.2.2 _ [⟨0, 0, none, 0, none⟩] rfl rfl rfl⟩

lemma packChunks_mem (B : ℕ) (l : List ChunkRecord) (tot : ℕ) :
    ∀ p ∈ (packChunks B l tot).1, ∃ c ∈ l,
      p = ⟨c.repo_path, c.level, c.context, 1⟩ := by
  induction l generalizing tot with
  | nil => simp [packChunks]
  | cons c rest ih =>
    intro p hp
    by_cases h : B < tot + wordCount c.context
    · simp [packChunks, h] at hp
    · simp only [packChunks, if_neg h] at hp
      rcases List.mem_cons.mp hp with rfl | hp'
      · exact ⟨c, List.mem_cons_self c rest, rfl⟩
      · obtain ⟨d, hd, rfl⟩ := ih (tot + wordCount c.context) p hp'
        exact ⟨d, List.mem_cons_of_mem c hd, rfl⟩

lemma collectCandidates_real (f : ℕ → List ChunkRecord)
    (hits : List ClusterPoint) :
    ∃ cands, collectCandidates (fun cid => Except.ok (f cid)) hits =
        Except.ok cands ∧
      ∀ c ∈ cands, ∃ p ∈ hits, c ∈ f p.id := by
  induction hits with
  | nil => exact ⟨[], rfl, by simp⟩
  | cons a rest ih =>
    obtain ⟨cs, hok, hmem⟩ := ih
    refine ⟨f a.id ++ cs, by simp [collectCandidates, hok], ?_⟩
    intro c hc
    rcases List.mem_append.mp hc with hl | hr
    · exact ⟨a, List.mem_cons_self a rest, hl⟩
    · obtain ⟨p, hp, hcf⟩ := hmem c hr
      exact ⟨p, List.mem_cons_of_mem a hp, hcf⟩

lemma scrollChunks_mem {chunks : List ChunkRecord} {cid : ℕ}
    {lvl : String} {k : ℕ} {c : ChunkRecord}
    (h : c ∈ scrollChunks chunks cid lvl k) :
    c.cluster_id = cid ∧ c.level = lvl := by
  have h1 := List.take_subset _ _ h
  have h2 := (List.mem_filter.mp h1).2
  simpa using h2

/-- C7: retrieval filters both stages to `levels[0]`: every chunk packed
into the response carries that level (so a chunk stored at level "file"
is never returned by a query for `["function_signature"]`), the centroid
search considers at most 10 clusters, and each per-cluster scroll scans
at most `k` chunks. -/
theorem query_level_isolation (st : Store) (sim : List ℚ → ℚ)
    (context_levels : Option (List String)) (max_tokens k : Option ℕ) :
    (∀ pc ∈ (queryMemoryRun st sim context_levels max_tokens k).chunks,
        pc.level = (effLevels context_levels).headD "") ∧
    (searchClusters st.clusters sim ((effLevels context_levels).headD "")
        querySearchLimit).length ≤ 10 ∧
    (∀ cid, (scrollChunks st.chunks cid
        ((effLevels context_levels).headD "")
        (orDefault k 24)).length ≤ orDefault k 24) ∧
    (context_levels = some ["function_signature"] →
      ∀ pc ∈ (queryMemoryRun st sim context_levels max_tokens k).chunks,
        pc.level ≠ "file") := by
  have hmain : ∀ pc ∈
      (queryMemoryRun st sim context_levels max_tokens k).chunks,
      pc.level = (effLevels context_levels).headD "" := by
    intro pc hpc
    obtain ⟨cands, hok, hmem⟩ := collectCandidates_real
      (fun cid => scrollChunks st.chunks cid
        ((effLevels context_levels).headD "") (orDefault k 24))
      (searchClusters st.clusters sim
        ((effLevels context_levels).headD "") querySearchLimit)
    simp only [queryMemoryRun, queryMemory, realQueryBackend] at hpc
    rw [if_neg (by simp)] at hpc
    simp only [hok] at hpc
    obtain ⟨c, hc, rfl⟩ := packChunks_mem _ _ _ pc hpc
    have hcc : c ∈ cands := (List.mem_mergeSort).mp hc
    obtain ⟨p, hp, hcf⟩ := hmem c hcc
    exact (scrollChunks_mem hcf).2
  refine ⟨hmain, ?_, ?_, ?_⟩
  · unfold searchClusters
    exact List.length_take_le _ _
  · intro cid
    exact List.length_take_le _ _
  · intro hcl pc hpc
    have h := hmain pc hpc
    rw [hcl] at h
    simp only [effLevels, List.isEmpty_cons, List.headD_cons] at h
    rw [h]
    decide

/-- Witness for C7: a store holding one "function_signature" chunk and
one "file" chunk in the same cluster, queried at
`["function_signature"]`: every returned chunk carries level
"function_signature". -/
theorem query_level_isolation_witness :
    ((queryMemoryRun
        ⟨[⟨5, [1], "function_signature", 1, 1⟩],
          [⟨1, [1], "/a", "function_signature", "ctx", 5, "c", some 0,
            none, 0⟩,
           ⟨2, [1], "/b", "file", "ctx2", 5, "c", some 0, none, 0⟩]⟩
        (fun _ => 1) (some ["function_signature"]) none none).chunks.all
      (fun pc => decide (pc.level = "function_signature"))) = true := by
  rw [List.all_eq_true]
  intro pc hpc
  have h := (query_level_isolation
    ⟨[⟨5, [1], "function_signature", 1, 1⟩],
      [⟨1, [1], "/a", "function_signature", "ctx", 5, "c", some 0,
        none, 0⟩,
       ⟨2, [1], "/b", "file", "ctx2", 5, "c", some 0, none, 0⟩]⟩
    (fun _ => 1) (some ["function_signature"]) none none).1 pc hpc
  simp only [effLevels, List.isEmpty_cons, List.headD_cons] at h
  exact decide_eq_true h

/-- C6 counterexample: when the cluster upsert succeeds and the chunk
upsert then fails, `store_memory` reports `indexed: 0` with an error —
but the batch's cluster records are already committed: starting from
empty collections, one chunk leaves a new cluster in the store. The
claim's "no subset of the batch's chunks or clusters is left committed"
is therefore false. -/
theorem store_partial_commit_counterexample :
    (storeMemory ⟨[], []⟩
        ⟨true, fun _ _ _ => Except.ok [], fun i => i, none, some "boom"⟩
        (fun _ => [1]) "c1" 0 [⟨"file", "/a", "ctx", none⟩]).1.indexed = 0 ∧
    (storeMemory ⟨[], []⟩
        ⟨true, fun _ _ _ => Except.ok [], fun i => i, none, some "boom"⟩
        (fun _ => [1]) "c1" 0 [⟨"file", "/a", "ctx", none⟩]).1.error =
      some "Failed to store memory: boom" ∧
    (storeMemory ⟨[], []⟩
        ⟨true, fun _ _ _ => Except.ok [], fun i => i, none, some "boom"⟩
        (fun _ => [1]) "c1" 0 [⟨"file", "/a", "ctx", none⟩]).2.clusters =
      [⟨0, [1], "file", 1, 1⟩] := by
  refine ⟨?_, ?_, ?_⟩ <;>
    simp [storeMemory, processChunks, assignCluster, findMatch,
      applyClusterUpserts, upsertCluster, errStoreResponse]

/-- C6 (amended): a search failure during the `store_memory` loop, or a
failing cluster upsert, aborts the whole operation with `indexed: 0`, an
error field and both collections untouched; a failing chunk upsert still
reports `indexed: 0` with an error and commits no chunks, though the
batch's cluster upsert has already taken effect; and any search or
scroll failure during `query_memory` yields an error response with empty
`chunks`, `tokens: 0` and `truncated: false`, never partial results. -/
theorem store_query_failure_semantics :
    (∀ (st : Store) (b : StoreBackend) (embed : String → List ℚ)
        (commit_id : String) (now : ℚ) (chunks : List Chunk) (e : String),
      b.collectionsOk = true →
      processChunks b embed commit_id now chunks 0 = Except.error e →
      storeMemory st b embed commit_id now chunks =
        (errStoreResponse e, st)) ∧
    (∀ (st : Store) (b : StoreBackend) (embed : String → List ℚ)
        (commit_id : String) (now : ℚ) (chunks : List Chunk)
        (cls : List ClusterRecord) (chs : List ChunkRecord) (e : String),
      b.collectionsOk = true →
      processChunks b embed commit_id now chunks 0 = Except.ok (cls, chs) →
      cls ≠ [] → b.clusterUpsertErr = some e →
      storeMemory st b embed commit_id now chunks =
        (errStoreResponse e, st)) ∧
    (∀ (st : Store) (b : StoreBackend) (embed : String → List ℚ)
        (commit_id : String) (now : ℚ) (chunks : List Chunk)
        (cls : List ClusterRecord) (chs : List ChunkRecord) (e : String),
      b.collectionsOk = true →
      processChunks b embed commit_id now chunks 0 = Except.ok (cls, chs) →
      b.clusterUpsertErr = none → chs ≠ [] → b.chunkUpsertErr = some e →
      (storeMemory st b embed commit_id now chunks).1 =
        errStoreResponse e ∧
      (storeMemory st b embed commit_id now chunks).2.chunks =
        st.chunks) ∧
    (∀ (qb : QueryBackend) (maxT : ℕ) (e : String),
      qb.collectionsOk = true → qb.search = Except.error e →
      queryMemory qb maxT =
        ⟨some ("Failed to query memory: " ++ e), [], false, 0⟩) ∧
    (∀ (qb : QueryBackend) (maxT : ℕ) (hits : List ClusterPoint)
        (e : String),
      qb.collectionsOk = true → qb.search = Except.ok hits →
      collectCandidates qb.scroll hits = Except.error e →
      queryMemory qb maxT =
        ⟨some ("Failed to retrieve chunks: " ++ e), [], false, 0⟩) := by
  refine ⟨?_, ?_, ?_, ?_, ?_⟩
  · intro st b embed commit_id now chunks e hcol hproc
    simp [storeMemory, hcol, hproc]
  · intro st b embed commit_id now chunks cls chs e hcol hproc hne herr
    simp [storeMemory, hcol, hproc, herr,
      List.isEmpty_eq_false_iff_exists_mem.mpr
        (List.exists_mem_of_ne_nil cls hne)]
  · intro st b embed commit_id now chunks cls chs e hcol hproc hcl hne herr
    have hchs : chs.isEmpty = false := by
      cases chs with
      | nil => exact absurd rfl hne
      | cons a t => rfl
    by_cases hclsE : cls.isEmpty
    · constructor <;>
        simp [storeMemory, hcol, hproc, hclsE, hchs, herr]
    · constructor <;>
        simp [storeMemory, hcol, hproc, hclsE, hchs, hcl, herr]
  · intro qb maxT e hcol hsearch
    simp [queryMemory, hcol, hsearch]
  · intro qb maxT hits e hcol hsearch hcand
    simp [queryMemory, hcol, hsearch, hcand]

/-- Witness for the amended C6 at a concrete input: a backend whose
cluster search is down makes `store_memory` return the error response
and leave the collections untouched. -/
theorem store_query_failure_semantics_witness :
    storeMemory ⟨[], []⟩
      ⟨true, fun _ _ _ => Except.error "down", fun i => i, none, none⟩
      (fun _ => [1]) "c1" 0 [⟨"file", "/a", "ctx", none⟩] =
      (errStoreResponse "down", ⟨[], []⟩) := by
  exact store_query_failure_semantics.1 ⟨[], []⟩
    ⟨true, fun _ _ _ => Except.error "down", fun i => i, none, none⟩
    (fun _ => [1]) "c1" 0 [⟨"file", "/a", "ctx", none⟩] "down" rfl rfl

lemma mem_upsertCluster_id (stc : List ClusterRecord)
    (p c : ClusterRecord) (hc : c ∈ upsertCluster stc p)
    (hid : c.id = p.id) : c = p := by
  unfold upsertCluster at hc
  by_cases h : stc.any (fun r => r.id = p.id)
  · rw [if_pos h] at hc
    obtain ⟨x, hx, hxe⟩ := List.mem_map.mp hc
    by_cases hxid : x.id = p.id
    · rw [if_pos hxid] at hxe
      exact hxe.symm
    · rw [if_neg hxid] at hxe
      exact absurd (hxe ▸ hid) hxid
  · rw [if_neg h] at hc
    rcases List.mem_append.mp hc with hl | hr
    · rw [List.any_eq_true] at h
      exact absurd ⟨c, hl, decide_eq_true hid⟩ h
    · simpa using hr

lemma upsertCluster_append (stc : List ClusterRecord) (p : ClusterRecord)
    (h : ∀ r ∈ stc, r.id ≠ p.id) : upsertCluster stc p = stc ++ [p] := by
  unfold upsertCluster
  rw [if_neg]
  rw [List.any_eq_true]
  rintro ⟨x, hx, hxe⟩
  exact h x hx (of_decide_eq_true hxe)

lemma storeMemoryRun_clusters (st : Store) (sim : List ℚ → List ℚ → ℚ)
    (fresh : ℕ → ℕ) (embed : String → List ℚ) (commit_id : String)
    (now : ℚ) (chunks : List Chunk) (cls : List ClusterRecord)
    (chs : List ChunkRecord)
    (h : processChunks (realStoreBackend st sim fresh) embed commit_id now
      chunks 0 = Except.ok (cls, chs)) :
    (storeMemoryRun st sim fresh embed commit_id now chunks).2.clusters =
      applyClusterUpserts st.clusters cls := by
  unfold storeMemoryRun storeMemory
  rw [if_neg (by simp [realStoreBackend]), h]
  by_cases hclsE : cls.isEmpty
  · have : cls = [] := List.isEmpty_iff.mp hclsE
    subst this
    by_cases hchsE : chs.isEmpty <;>
      simp [hclsE, hchsE, realStoreBackend, applyClusterUpserts]
  · by_cases hchsE : chs.isEmpty <;>
      simp [hclsE, hchsE, realStoreBackend]

/-- C10: within one `store_memory` call every chunk's cluster search runs
against the pre-call cluster collection (upserts are deferred to the end
of the loop). Consequently (a) two chunks in one batch that both fail to
match any pre-existing cluster each queue a fresh cluster with
`member_count = 1` under their own fresh ids — two distinct clusters even
when their vectors are identical — and (b) two chunks matching the same
pre-existing cluster each compute their update from the stale pre-call
record (both queued records carry `member_count + 1`), and after the
batched upsert the record under that cluster id is the last queued one,
so one increment is lost. -/
theorem store_batch_deferred (st : Store) (sim : List ℚ → List ℚ → ℚ)
    (fresh : ℕ → ℕ) (embed : String → List ℚ) (commit_id : String)
    (now : ℚ) (c1 c2 : Chunk) :
    (((∀ p ∈ searchClusters st.clusters (sim (embed c1.context)) c1.level
          clusterSearchLimit, p.score < simThreshold) →
      (∀ p ∈ searchClusters st.clusters (sim (embed c2.context)) c2.level
          clusterSearchLimit, p.score < simThreshold) →
      (storeMemoryRun st sim fresh embed commit_id now
          [c1, c2]).2.clusters =
        applyClusterUpserts st.clusters
          [⟨fresh 0, embed c1.context, c1.level, 1, 1⟩,
           ⟨fresh 1, embed c2.context, c2.level, 1, 1⟩] ∧
      ((∀ r ∈ st.clusters, r.id ≠ fresh 0) →
       (∀ r ∈ st.clusters, r.id ≠ fresh 1) → fresh 0 ≠ fresh 1 →
        (storeMemoryRun st sim fresh embed commit_id now
            [c1, c2]).2.clusters =
          st.clusters ++
            [⟨fresh 0, embed c1.context, c1.level, 1, 1⟩,
             ⟨fresh 1, embed c2.context, c2.level, 1, 1⟩]))) ∧
    (∀ (cl : ClusterRecord) (s1 s2 : ℚ),
      findMatch (searchClusters st.clusters (sim (embed c1.context))
        c1.level clusterSearchLimit) = some (cl.toPoint s1) →
      findMatch (searchClusters st.clusters (sim (embed c2.context))
        c2.level clusterSearchLimit) = some (cl.toPoint s2) →
      processChunks (realStoreBackend st sim fresh) embed commit_id now
          [c1, c2] 0 =
        Except.ok
          ([⟨cl.id, updateCentroid cl.vector cl.member_count
              (embed c1.context), c1.level, cl.member_count + 1,
              cl.importance + 1 / 2⟩,
            ⟨cl.id, updateCentroid cl.vector cl.member_count
              (embed c2.context), c2.level, cl.member_count + 1,
              cl.importance + 1 / 2⟩],
           [⟨hash_chunk_id c1.repo_path c1.level c1.context,
              updateCentroid cl.vector cl.member_count (embed c1.context),
              c1.repo_path, c1.level, c1.context, cl.id, commit_id,
              some 0, none, now⟩,
            ⟨hash_chunk_id c2.repo_path c2.level c2.context,
              updateCentroid cl.vector cl.member_count (embed c2.context),
              c2.repo_path, c2.level, c2.context, cl.id, commit_id,
              some 0, none, now⟩]) ∧
      (∀ c ∈ (storeMemoryRun st sim fresh embed commit_id now
          [c1, c2]).2.clusters, c.id = cl.id →
        c = ⟨cl.id, updateCentroid cl.vector cl.member_count
          (embed c2.context), c2.level, cl.member_count + 1,
          cl.importance + 1 / 2⟩)) := by
  constructor
  · intro hA1 hA2
    have hm1 := findMatch_none _ hA1
    have hm2 := findMatch_none _ hA2
    have key : processChunks (realStoreBackend st sim fresh) embed
        commit_id now [c1, c2] 0 =
        Except.ok
          ([⟨fresh 0, embed c1.context, c1.level, 1, 1⟩,
            ⟨fresh 1, embed c2.context, c2.level, 1, 1⟩],
           [⟨hash_chunk_id c1.repo_path c1.level c1.context,
              embed c1.context, c1.repo_path, c1.level, c1.context,
              fresh 0, commit_id, some 0, none, now⟩,
            ⟨hash_chunk_id c2.repo_path c2.level c2.context,
              embed c2.context, c2.repo_path, c2.level, c2.context,
              fresh 1, commit_id, some 0, none, now⟩]) := by
      simp [processChunks, realStoreBackend, assignCluster, hm1, hm2]
    have hcl := storeMemoryRun_clusters st sim fresh embed commit_id now
      [c1, c2] _ _ key
    refine ⟨hcl, ?_⟩
    intro hid0 hid1 hne
    rw [hcl]
    unfold applyClusterUpserts
    rw [List.foldl_cons, List.foldl_cons, List.foldl_nil]
    rw [upsertCluster_append st.clusters _ hid0]
    rw [upsertCluster_append _ _ (by
      intro r hr
      rcases List.mem_append.mp hr with hl | hr2
      · exact hid1 r hl
      · simp only [List.mem_singleton] at hr2
        subst hr2
        simpa using hne)]
    simp
  · intro cl s1 s2 hm1 hm2
    have key : processChunks (realStoreBackend st sim fresh) embed
        commit_id now [c1, c2] 0 =
        Except.ok
          ([⟨cl.id, updateCentroid cl.vector cl.member_count
              (embed c1.context), c1.level, cl.member_count + 1,
              cl.importance + 1 / 2⟩,
            ⟨cl.id, updateCentroid cl.vector cl.member_count
              (embed c2.context), c2.level, cl.member_count + 1,
              cl.importance + 1 / 2⟩],
           [⟨hash_chunk_id c1.repo_path c1.level c1.context,
              updateCentroid cl.vector cl.member_count (embed c1.context),
              c1.repo_path, c1.level, c1.context, cl.id, commit_id,
              some 0, none, now⟩,
            ⟨hash_chunk_id c2.repo_path c2.level c2.context,
              updateCentroid cl.vector cl.member_count (embed c2.context),
              c2.repo_path, c2.level, c2.context, cl.id, commit_id,
              some 0, none, now⟩]) := by
      simp [processChunks, realStoreBackend, assignCluster,
        ClusterRecord.toPoint, hm1, hm2]
    refine ⟨key, ?_⟩
    intro c hc hid
    rw [storeMemoryRun_clusters st sim fresh embed commit_id now
      [c1, c2] _ _ key] at hc
    unfold applyClusterUpserts at hc
    rw [List.foldl_cons, List.foldl_cons, List.foldl_nil] at hc
    exact mem_upsertCluster_id _ _ _ hc hid

/-- Witness for C10: an empty pre-call store (both chunks miss, two
distinct fresh clusters appear), and a one-cluster store matched by both
chunks of the batch (the final record keeps `member_count = 2`, one
increment lost). -/
theorem store_batch_deferred_witness :
    (storeMemoryRun ⟨[], []⟩ (fun _ _ => 1) (fun i => i) (fun _ => [1])
        "c" 0 [⟨"file", "/a", "x", none⟩, ⟨"file", "/b", "y", none⟩]).2.clusters =
      [⟨0, [1], "file", 1, 1⟩, ⟨1, [1], "file", 1, 1⟩] ∧
    (∀ c ∈ (storeMemoryRun ⟨[⟨5, [1], "file", 1, 1⟩], []⟩
        (fun _ _ => 1) (fun i => i) (fun _ => [1]) "c" 0
        [⟨"file", "/a", "x", none⟩, ⟨"file", "/b", "y", none⟩]).2.clusters,
      c.id = 5 →
      c = ⟨5, updateCentroid [1] 1 [1], "file", 2, 3 / 2⟩) := by
  constructor
  · have h := (store_batch_deferred ⟨[], []⟩ (fun _ _ => 1) (fun i => i)
      (fun _ => [1]) "c" 0 ⟨"file", "/a", "x", none⟩
      ⟨"file", "/b", "y", none⟩).1
      (by simp [searchClusters]) (by simp [searchClusters])
    have h2 := h.2 (by simp) (by simp) (by norm_num)
    simpa using h2
  · have h := (store_batch_deferred ⟨[⟨5, [1], "file", 1, 1⟩], []⟩
      (fun _ _ => 1) (fun i => i) (fun _ => [1]) "c" 0
      ⟨"file", "/a", "x", none⟩ ⟨"file", "/b", "y", none⟩).2
      ⟨5, [1], "file", 1, 1⟩ 1 1 ?_ ?_
    rotate_left
    · have hs : searchClusters [⟨5, [1], "file", 1, 1⟩]
          ((fun _ _ => (1 : ℚ)) ((fun _ => [1]) "x")) "file"
          clusterSearchLimit =
          [ClusterRecord.toPoint ⟨5, [1], "file", 1, 1⟩ 1] := by
        simp [searchClusters, clusterSearchLimit, List.mergeSort_singleton]
      rw [hs]
      exact List.find?_cons_of_pos _ (by
        norm_num [simThreshold, ClusterRecord.toPoint])
    · have hs : searchClusters [⟨5, [1], "file", 1, 1⟩]
          ((fun _ _ => (1 : ℚ)) ((fun _ => [1]) "y")) "file"
          clusterSearchLimit =
          [ClusterRecord.toPoint ⟨5, [1], "file", 1, 1⟩ 1] := by
        simp [searchClusters, clusterSearchLimit, List.mergeSort_singleton]
      rw [hs]
      exact List.find?_cons_of_pos _ (by
        norm_num [simThreshold, ClusterRecord.toPoint])
    intro c hc hid
    have hres := h.2 c hc hid
    norm_num at hres
    exact hres

lemma check_levels_ok_iff (cl : Option (List String)) :
    check_levels cl = Except.ok true ↔
      ∀ ls ∈ cl, ∀ l ∈ ls, l ∈ DEFAULT_CONTEXT_LEVELS := by
  cases cl with
  | none => simp [check_levels]
  | some ls =>
    have hiff : ((ls.filter
        (fun l => decide (l ∉ DEFAULT_CONTEXT_LEVELS))).isEmpty = true) ↔
        ∀ l ∈ ls, l ∈ DEFAULT_CONTEXT_LEVELS := by
      rw [List.isEmpty_iff, List.filter_eq_nil_iff]
      constructor
      · intro h l hl
        simpa using h l hl
      · intro h l hl
        simpa using h l hl
    simp only [check_levels, Option.mem_def, Option.some.injEq,
      forall_eq']
    by_cases h : (ls.filter
        (fun l => decide (l ∉ DEFAULT_CONTEXT_LEVELS))).isEmpty
    · rw [if_pos h]
      exact ⟨fun _ => hiff.mp h, fun _ => rfl⟩
    · rw [if_neg h]
      exact ⟨fun hc => absurd hc (by simp),
        fun hall => absurd (hiff.mpr hall) h⟩

lemma checkK_ok_iff (k : Option ℤ) :
    checkK k = Except.ok () ↔ ∀ kk ∈ k, 1 ≤ kk ∧ kk ≤ 100 := by
  cases k with
  | none => simp [checkK]
  | some kk =>
    simp only [checkK, Option.mem_def, Option.some.injEq, forall_eq']
    by_cases h1 : kk < 1
    · rw [if_pos h1]
      exact ⟨fun hc => absurd hc (by simp), fun hall => by omega⟩
    · rw [if_neg h1]
      by_cases h2 : 100 < kk
      · rw [if_pos h2]
        exact ⟨fun hc => absurd hc (by simp), fun hall => by omega⟩
      · rw [if_neg h2]
        exact ⟨fun _ => by omega, fun _ => rfl⟩

lemma validateQueryParams_ok_iff (mt k : Option ℤ)
    (cl : Option (List String)) :
    validateQueryParams mt cl k = Except.ok () ↔
      ((∀ m ∈ mt, 50 ≤ m ∧ m ≤ 4096) ∧
       (∀ ls ∈ cl, ∀ l ∈ ls, l ∈ DEFAULT_CONTEXT_LEVELS) ∧
       (∀ kk ∈ k, 1 ≤ kk ∧ kk ≤ 100)) := by
  unfold validateQueryParams
  cases hcl : check_levels cl with
  | error e =>
    have hnotB : ¬ ∀ ls ∈ cl, ∀ l ∈ ls, l ∈ DEFAULT_CONTEXT_LEVELS := by
      intro hB
      rw [(check_levels_ok_iff cl).mpr hB] at hcl
      exact absurd hcl (by simp)
    simp only []
    exact ⟨fun hc => absurd hc (by simp),
      fun hall => absurd hall.2.1 hnotB⟩
  | ok bb =>
    have hB : ∀ ls ∈ cl, ∀ l ∈ ls, l ∈ DEFAULT_CONTEXT_LEVELS := by
      rw [← check_levels_ok_iff cl]
      have : bb = true := by
        cases cl with
        | none =>
          simp [check_levels] at hcl
          exact hcl
        | some ls =>
          by_cases h : (ls.filter
              (fun l => decide (l ∉ DEFAULT_CONTEXT_LEVELS))).isEmpty
          · simp only [check_levels, if_pos h] at hcl
            exact (Except.ok.inj hcl).symm
          · simp only [check_levels, if_neg h] at hcl
            exact absurd hcl (by simp)
      rw [this] at hcl
      exact hcl
    cases mt with
    | none =>
      simp only [Option.mem_def]
      rw [checkK_ok_iff]
      simp only [Option.mem_def]
      constructor
      · intro hk
        exact ⟨by simp, hB, hk⟩
      · intro hall
        exact hall.2.2
    | some m =>
      dsimp only
      by_cases h1 : m < 50
      · rw [if_pos h1]
        refine ⟨fun hc => absurd hc (by simp), fun hall => ?_⟩
        have := hall.1 m rfl
        omega
      · rw [if_neg h1]
        by_cases h2 : 4096 < m
        · rw [if_pos h2]
          refine ⟨fun hc => absurd hc (by simp), fun hall => ?_⟩
          have := hall.1 m rfl
          omega
        · rw [if_neg h2]
          rw [checkK_ok_iff]
          constructor
          · intro hk
            refine ⟨?_, hB, hk⟩
            intro mm hmm
            simp only [Option.mem_def, Option.some.injEq] at hmm
            omega
          · intro hall
            exact hall.2.2

lemma validateChunks_error (chunks : List Chunk) (ch : Chunk)
    (hch : ch ∈ chunks) (hbad : ch.level ∉ DEFAULT_CONTEXT_LEVELS) :
    ∃ e, validateChunks chunks = Except.error e := by
  induction chunks with
  | nil => cases hch
  | cons a rest ih =>
    rcases List.mem_cons.mp hch with rfl | h'
    · refine ⟨"Invalid context level: " ++ ch.level ++
        ". Allowed values are: " ++
        String.intercalate ", " DEFAULT_CONTEXT_LEVELS, ?_⟩
      unfold validateChunks validateChunkLevel
      rw [if_neg hbad]
    · cases hv : validateChunkLevel a with
      | error e => exact ⟨e, by simp [validateChunks, hv]⟩
      | ok u =>
        obtain ⟨e, he⟩ := ih h'
        exact ⟨e, by simp [validateChunks, hv, he]⟩

/-- C9: parameter validation rejects malformed input before any I/O: a
chunk with a level outside the five defined levels fails validation
(`store_memory` touches neither collection and indexes nothing), and
`query_memory` parameters validate exactly when `max_tokens ∈ [50,
4096]`, `k ∈ [1, 100]` and every entry of `context_levels` is one of the
five defined levels; each failure carries an error message. -/
theorem validation_spec :
    (∀ ch : Chunk, validateChunkLevel ch = Except.ok () ↔
      ch.level ∈ DEFAULT_CONTEXT_LEVELS) ∧
    (∀ (mt k : Option ℤ) (cl : Option (List String)),
      validateQueryParams mt cl k = Except.ok () ↔
        ((∀ m ∈ mt, 50 ≤ m ∧ m ≤ 4096) ∧
         (∀ ls ∈ cl, ∀ l ∈ ls, l ∈ DEFAULT_CONTEXT_LEVELS) ∧
         (∀ kk ∈ k, 1 ≤ kk ∧ kk ≤ 100))) ∧
    (∀ (st : Store) (b : StoreBackend) (embed : String → List ℚ)
        (commit_id : String) (now : ℚ) (chunks : List Chunk)
        (ch : Chunk), ch ∈ chunks →
      ch.level ∉ DEFAULT_CONTEXT_LEVELS →
      (storeMemoryTool st b embed commit_id now chunks).2 = st ∧
      (storeMemoryTool st b embed commit_id now chunks).1.indexed = 0 ∧
      (storeMemoryTool st b embed commit_id now
        chunks).1.error.isSome = true) ∧
    (∀ (st : Store) (sim : List ℚ → ℚ) (mt k : Option ℤ)
        (cl : Option (List String)),
      validateQueryParams mt cl k ≠ Except.ok () →
      ∃ e, queryMemoryTool st sim mt cl k = ⟨some e, [], false, 0⟩) := by
  refine ⟨?_, fun mt k cl => validateQueryParams_ok_iff mt k cl, ?_, ?_⟩
  · intro ch
    unfold validateChunkLevel
    by_cases h : ch.level ∈ DEFAULT_CONTEXT_LEVELS
    · rw [if_pos h]
      simp [h]
    · rw [if_neg h]
      simp [h]
  · intro st b embed commit_id now chunks ch hch hbad
    obtain ⟨e, he⟩ := validateChunks_error chunks ch hch hbad
    refine ⟨by simp [storeMemoryTool, he], by simp [storeMemoryTool, he],
      by simp [storeMemoryTool, he]⟩
  · intro st sim mt k cl hv
    cases hval : validateQueryParams mt cl k with
    | error e => exact ⟨e, by simp [queryMemoryTool, hval]⟩
    | ok u =>
      cases u
      exact absurd hval hv

/-- Witness for C9 at concrete invalid inputs: level "sentence" is
rejected, `max_tokens = 49` and `k = 101` fail validation, and the tool
boundaries return pure error responses leaving state untouched. -/
theorem validation_spec_witness :
    (validateChunkLevel ⟨"sentence", "/a", "x", none⟩ ≠ Except.ok ()) ∧
    (validateQueryParams (some 49) none none ≠ Except.ok ()) ∧
    (validateQueryParams (some 1000) none (some 101) ≠ Except.ok ()) ∧
    (storeMemoryTool ⟨[], []⟩
      ⟨true, fun _ _ _ => Except.ok [], fun i => i, none, none⟩
      (fun _ => [1]) "c" 0 [⟨"sentence", "/a", "x", none⟩]).2 =
      (⟨[], []⟩ : Store) ∧
    (∃ e, queryMemoryTool ⟨[], []⟩ (fun _ => 1) (some 49) none none =
      ⟨some e, [], false, 0⟩) := by
  obtain ⟨hA, hB, hC, hD⟩ := validation_spec
  refine ⟨?_, ?_, ?_, ?_, ?_⟩
  · intro hc
    have := (hA ⟨"sentence", "/a", "x", none⟩).mp hc
    simp [DEFAULT_CONTEXT_LEVELS] at this
  · intro hc
    have := ((hB (some 49) none none).mp hc).1 49 rfl
    omega
  · intro hc
    have := ((hB (some 1000) (some 101) none).mp hc).2.2 101 rfl
    omega
  · exact (hC ⟨[], []⟩
      ⟨true, fun _ _ _ => Except.ok [], fun i => i, none, none⟩
      (fun _ => [1]) "c" 0 [⟨"sentence", "/a", "x", none⟩]
      ⟨"sentence", "/a", "x", none⟩ (List.mem_singleton.mpr rfl)
      (by simp [DEFAULT_CONTEXT_LEVELS])).1
  · refine hD ⟨[], []⟩ (fun _ => 1) (some 49) none none ?_
    intro hc
    have := ((hB (some 49) none none).mp hc).1 49 rfl
    omega

end MemoryAlpha
